import Mathlib

set_option maxRecDepth 10000

/-!
Verification of the backtesting / strategy-evaluation core of the
`futures-quant-agents` repository.

The TypeScript core runs on IEEE-754 doubles.  We embed its numerics as
`JsNum`: an exact rational together with the two non-finite shapes the
claims care about (`NaN` and signed infinity).  Rounding error is outside
the model (every literal the code manipulates is an exact rational here),
but the division-by-zero behaviour of JavaScript — `x/0 = ±Infinity`,
`0/0 = NaN`, `NaN` propagating and comparing false — is modelled exactly,
because several claims are about precisely that behaviour.

`Math.sqrt` cannot be represented exactly on ℚ.  `jsqrt` is exact on
`0`, `NaN` and `±Infinity` and is a sign-preserving stand-in on positive
rationals; no theorem below depends on the magnitude of the square root
of a positive number (only on its zero/NaN/sign behaviour).
-/

/- Batteries marks the rational operations `@[irreducible]`; concrete
runs of the embedded engine are evaluated by `decide`, which needs them
to unfold. -/
attribute [local semireducible] Rat.add Rat.sub Rat.mul Rat.inv

/-- JavaScript number: an exact rational, NaN, or a signed infinity
(`inf true` is `+Infinity`).  Negative zero is identified with zero; no
claim distinguishes them. -/
inductive JsNum where
  | num (q : ℚ)
  | nan
  | inf (pos : Bool)
  deriving DecidableEq, Repr

namespace JsNum

/-- JavaScript addition. -/
def jadd : JsNum → JsNum → JsNum
  | nan, _ => nan
  | _, nan => nan
  | num a, num b => num (a + b)
  | num _, inf s => inf s
  | inf s, num _ => inf s
  | inf s, inf t => if s = t then inf s else nan

/-- JavaScript negation. -/
def jneg : JsNum → JsNum
  | nan => nan
  | num a => num (-a)
  | inf s => inf (!s)

/-- JavaScript subtraction. -/
def jsub (a b : JsNum) : JsNum := jadd a (jneg b)

/-- JavaScript multiplication. -/
def jmul : JsNum → JsNum → JsNum
  | nan, _ => nan
  | _, nan => nan
  | num a, num b => num (a * b)
  | num a, inf s => if a = 0 then nan else inf (s == decide (0 < a))
  | inf s, num b => if b = 0 then nan else inf (s == decide (0 < b))
  | inf s, inf t => inf (s == t)

/-- JavaScript division: `x/0` is a signed infinity for `x ≠ 0` and `NaN`
for `x = 0` (the sign of a zero divisor is not modelled; the code under
verification never produces a negative zero divisor). -/
def jdiv : JsNum → JsNum → JsNum
  | nan, _ => nan
  | _, nan => nan
  | num a, num b =>
      if b = 0 then (if a = 0 then nan else inf (decide (0 < a))) else num (a / b)
  | num _, inf _ => num 0
  | inf s, num b => if b = 0 then inf s else inf (s == decide (0 < b))
  | inf _, inf _ => nan

/-- `Math.abs`. -/
def jabs : JsNum → JsNum
  | nan => nan
  | num a => num |a|
  | inf _ => inf true

/-- `Math.max` of two values: `NaN` wins, otherwise the larger. -/
def jmax : JsNum → JsNum → JsNum
  | nan, _ => nan
  | _, nan => nan
  | num a, num b => num (max a b)
  | inf true, _ => inf true
  | _, inf true => inf true
  | inf false, x => x
  | num a, inf false => num a

/-- JavaScript `<` as a boolean: any comparison with NaN is false. -/
def jlt : JsNum → JsNum → Bool
  | nan, _ => false
  | _, nan => false
  | num a, num b => decide (a < b)
  | num _, inf s => s
  | inf s, num _ => !s
  | inf s, inf t => !s && t

/-- JavaScript `<=` as a boolean: any comparison with NaN is false. -/
def jle : JsNum → JsNum → Bool
  | nan, _ => false
  | _, nan => false
  | num a, num b => decide (a ≤ b)
  | num _, inf s => s
  | inf s, num _ => !s
  | inf s, inf t => !s || t

/-- JavaScript `>`. -/
def jgt (a b : JsNum) : Bool := jlt b a

/-- JavaScript `>=`. -/
def jge (a b : JsNum) : Bool := jle b a

/-- JavaScript truthiness of a number: `0` and `NaN` are falsy. -/
def truthy : JsNum → Bool
  | num a => decide (a ≠ 0)
  | nan => false
  | inf _ => true

/-- `Math.sqrt`, modelled abstractly: exact on `NaN`, infinities, negative
inputs and `0`; on a positive rational it returns a positive stand-in
(the input itself) because the true value is in general irrational.  No
theorem in this file depends on the stand-in's magnitude. -/
def jsqrt : JsNum → JsNum
  | nan => nan
  | inf true => inf true
  | inf false => nan
  | num q => if q < 0 then nan else if q = 0 then num 0 else num q

theorem jadd_assoc (a b c : JsNum) : jadd (jadd a b) c = jadd a (jadd b c) := by
  cases a <;> cases b <;> cases c <;>
    simp only [jadd] <;> (try split_ifs) <;> simp_all [jadd] <;> ring

theorem jadd_num_zero (a : JsNum) : jadd a (num 0) = a := by
  cases a <;> simp [jadd]

theorem jmax_neginf (a : JsNum) : jmax (inf false) a = a := by
  cases a <;> simp [jmax] <;> rename_i s <;> cases s <;> simp [jmax]

end JsNum

open JsNum

/-! ## Data model (src/lib/types.ts) -/

/-- `StrategyConfig.style`. -/
inductive Style where
  | TREND | MEAN_REVERSION | BREAKOUT
  deriving DecidableEq, Repr

/-- `MarketRegime`. -/
inductive Regime where
  | TRENDING | RANGING | VOLATILE
  deriving DecidableEq, Repr

/-- Position side (`"long" | "short"`). -/
inductive Side where
  | long | short
  deriving DecidableEq, Repr

/-- `TradeSignal`. -/
inductive Signal where
  | LONG | SHORT | NEUTRAL
  deriving DecidableEq, Repr

/-- One OHLCV candle (`MarketData`).  Candle fields are caller-supplied
finite numbers, so they are plain rationals; `open` is a Lean keyword and
is rendered `openPrice`. -/
structure Candle where
  symbol : String
  timestamp : Int
  openPrice : ℚ
  high : ℚ
  low : ℚ
  close : ℚ
  volume : ℚ
  timeframe : String
  deriving DecidableEq, Repr

/-- The zero candle, used as the out-of-range default of list indexing
(the source never actually indexes out of range on the guarded paths). -/
def dummyCandle : Candle :=
  { symbol := "", timestamp := 0, openPrice := 0, high := 0, low := 0,
    close := 0, volume := 0, timeframe := "" }

/-- `{line, signal, histogram}` of a MACD row. -/
structure Macd where
  line : JsNum
  signal : JsNum
  histogram : JsNum
  deriving DecidableEq, Repr

/-- `{upper, middle, lower}` of a Bollinger/Donchian band. -/
structure Band where
  upper : JsNum
  middle : JsNum
  lower : JsNum
  deriving DecidableEq, Repr

/-- `{k, d}` of a Stochastic row. -/
structure Stoch where
  k : JsNum
  d : JsNum
  deriving DecidableEq, Repr

/-- The untyped indicator bag returned by
`IndicatorService.calculateIndicators`: a JS object whose keys depend on
the strategy style.  An absent key is `none` (JavaScript `undefined`). -/
structure Indicators where
  price : Option JsNum := none
  priceChange : Option JsNum := none
  volatility : Option JsNum := none
  sma50 : Option JsNum := none
  ema20 : Option JsNum := none
  adx : Option JsNum := none
  macd : Option Macd := none
  bollinger : Option Band := none
  rsi : Option JsNum := none
  stochastic : Option Stoch := none
  atr : Option JsNum := none
  donchian : Option Band := none
  volumeChange : Option JsNum := none
  deriving DecidableEq, Repr

/-- JavaScript member access on a possibly-absent number coerces
`undefined` to `NaN` in arithmetic and comparisons. -/
def getJ (o : Option JsNum) : JsNum := o.getD JsNum.nan

/-- Truthiness of a possibly-absent number (`undefined`, `0` and `NaN`
are all falsy). -/
def truthyN (o : Option JsNum) : Bool :=
  match o with
  | some v => truthy v
  | none => false

/-- The quick-backtest metrics `StrategyEngine.backtest` returns and
attaches to a strategy as `backTestResult`. -/
structure QuickBacktestResult where
  winRate : JsNum
  expectancy : JsNum
  trades : Nat
  avgWin : JsNum
  avgLoss : JsNum
  deriving DecidableEq, Repr

/-- `StrategyConfig`.  `riskPerTrade` and `takeProfitRatio` are
user-configured finite numbers, hence rationals. -/
structure Strategy where
  id : String
  name : String
  style : Style
  riskPerTrade : ℚ
  takeProfitRatio : ℚ
  stopLossType : String
  primaryIndicators : List String
  confirmationIndicators : List String
  suitableRegimes : List Regime
  backTestResult : Option QuickBacktestResult := none
  deriving DecidableEq, Repr

/-- The external `technicalindicators` library, an out-of-scope
collaborator: each function consumes the numeric inputs the repository
hands it and returns the library's row list.  A library call that throws
is equivalent, on every repository path, to one returning `[]` (the
`catch` branches return the same defaults as an empty result), so the
model makes the functions total. -/
structure TILib where
  sma : Nat → List ℚ → List JsNum
  ema : Nat → List ℚ → List JsNum
  rsi : Nat → List ℚ → List JsNum
  macd : List ℚ → List Macd
  bollingerBands : Nat → ℚ → List ℚ → List Band
  atr : Nat → List ℚ → List ℚ → List ℚ → List JsNum
  adx : Nat → List ℚ → List ℚ → List ℚ → List JsNum
  stochastic : Nat → Nat → List ℚ → List ℚ → List ℚ → List Stoch

/-! ## Indicator Calculator (src/lib/trading/indicators.ts) -/

/-- `IndicatorService.calculateSMA`: last library row, `0` when empty. -/
def calculateSMA (lib : TILib) (values : List ℚ) (period : Nat) : JsNum :=
  (lib.sma period values).getLast?.getD (num 0)

/-- `IndicatorService.calculateEMA`. -/
def calculateEMA (lib : TILib) (values : List ℚ) (period : Nat) : JsNum :=
  (lib.ema period values).getLast?.getD (num 0)

/-- `IndicatorService.calculateRSI`: defaults to the neutral `50`. -/
def calculateRSI (lib : TILib) (values : List ℚ) (period : Nat) : JsNum :=
  (lib.rsi period values).getLast?.getD (num 50)

/-- `IndicatorService.calculateMACD` (12/26/9), `{0,0,0}` when empty. -/
def calculateMACD (lib : TILib) (values : List ℚ) : Macd :=
  (lib.macd values).getLast?.getD { line := num 0, signal := num 0, histogram := num 0 }

/-- `IndicatorService.calculateBollingerBands`: on an empty result the
fallback band is built from the plain average of the inputs. -/
def calculateBollingerBands (lib : TILib) (values : List ℚ) (period : Nat)
    (stdDev : ℚ) : Band :=
  match (lib.bollingerBands period stdDev values).getLast? with
  | some b => b
  | none =>
      let avg : ℚ := if values.length > 0 then values.sum / values.length else 0
      { upper := num (avg * (102 / 100)), middle := num avg,
        lower := num (avg * (98 / 100)) }

/-- `IndicatorService.calculateATR`. -/
def calculateATR (lib : TILib) (highs lows closes : List ℚ) (period : Nat) : JsNum :=
  (lib.atr period highs lows closes).getLast?.getD (num 0)

/-- `IndicatorService.calculateADX`. -/
def calculateADX (lib : TILib) (highs lows closes : List ℚ) (period : Nat) : JsNum :=
  (lib.adx period highs lows closes).getLast?.getD (num 0)

/-- `IndicatorService.calculateStochastic`, `{50,50}` when empty. -/
def calculateStochastic (lib : TILib) (highs lows closes : List ℚ)
    (period signalPeriod : Nat) : Stoch :=
  (lib.stochastic period signalPeriod highs lows closes).getLast?.getD
    { k := num 50, d := num 50 }

/-- `IndicatorService.calculatePriceChange`: percent change of the last
close against the close 25 candles back. -/
def calculatePriceChange (closes : List ℚ) : JsNum :=
  if closes.length < 2 then num 0
  else
    let oldPrice := closes.getD (closes.length - 25) 0
    let newPrice := closes.getD (closes.length - 1) 0
    jmul (jdiv (num (newPrice - oldPrice)) (num oldPrice)) (num 100)

/-- `IndicatorService.calculateVolatility`: stdev of one-step returns
`× 100 × √24`. -/
def calculateVolatility (closes : List ℚ) : JsNum :=
  if closes.length < 20 then num 0
  else
    let returns := List.zipWith
      (fun prev cur => jdiv (num (cur - prev)) (num prev)) closes closes.tail
    let mean := jdiv (returns.foldl jadd (num 0)) (num returns.length)
    let variance := jdiv
      (returns.foldl (fun sum v => jadd sum (jmul (jsub v mean) (jsub v mean))) (num 0))
      (num returns.length)
    jmul (jmul (jsqrt variance) (num 100)) (jsqrt (num 24))

/-- `IndicatorService.calculateDonchianChannels`. -/
def calculateDonchianChannels (highs lows : List ℚ) (period : Nat) : Band :=
  if highs.length < period ∨ lows.length < period then
    { upper := num 0, middle := num 0, lower := num 0 }
  else
    let upper := ((highs.drop (highs.length - period)).foldl max
      ((highs.drop (highs.length - period)).headI))
    let lower := ((lows.drop (lows.length - period)).foldl min
      ((lows.drop (lows.length - period)).headI))
    { upper := num upper, lower := num lower, middle := num ((upper + lower) / 2) }

/-- `IndicatorService.calculateVolumeChange`: 5-candle vs prior
15-candle volume SMA, as a percentage. -/
def calculateVolumeChange (lib : TILib) (volumes : List ℚ) : JsNum :=
  if volumes.length < 20 then num 0
  else
    let recentAvg := calculateSMA lib (volumes.drop (volumes.length - 5)) 5
    let previousAvg :=
      calculateSMA lib ((volumes.drop (volumes.length - 20)).take 15) 15
    if jgt previousAvg (num 0) then
      jmul (jdiv (jsub recentAvg previousAvg) previousAvg) (num 100)
    else num 0

/-- `IndicatorService.calculateIndicators`: with fewer than 50 candles the
bag holds only `price` (last close, or `0` for no data); otherwise the
common indicators plus the style-specific set. -/
def calculateIndicators (lib : TILib) (data : List Candle) (strategy : Strategy) :
    Indicators :=
  if data.length < 50 then
    { price := some (num (match data.getLast? with | some c => c.close | none => 0)) }
  else
    let closes := data.map (·.close)
    let highs := data.map (·.high)
    let lows := data.map (·.low)
    let volumes := data.map (·.volume)
    let base : Indicators :=
      { price := some (num (closes.getD (closes.length - 1) 0)),
        priceChange := some (calculatePriceChange closes),
        volatility := some (calculateVolatility closes) }
    match strategy.style with
    | Style.TREND =>
        { base with
          sma50 := some (calculateSMA lib closes 50),
          ema20 := some (calculateEMA lib closes 20),
          adx := some (calculateADX lib highs lows closes 14),
          macd := some (calculateMACD lib closes) }
    | Style.MEAN_REVERSION =>
        { base with
          bollinger := some (calculateBollingerBands lib closes 20 2),
          rsi := some (calculateRSI lib closes 14),
          stochastic := some (calculateStochastic lib highs lows closes 14 3) }
    | Style.BREAKOUT =>
        { base with
          atr := some (calculateATR lib highs lows closes 14),
          donchian := some (calculateDonchianChannels highs lows 20),
          volumeChange := some (calculateVolumeChange lib volumes) }

/-! ## Signal Rule Engine (BacktestingEngine.generateSignal and helpers,
src/lib/trading-agent-integration.ts) -/

/-- The LONG condition of the TREND rules:
`ema20 > sma50 && macd.histogram > 0 && adx > 25`. -/
def trendLongCond (ind : Indicators) : Bool :=
  jgt (getJ ind.ema20) (getJ ind.sma50)
    && jgt (getJ (ind.macd.map (·.histogram))) (num 0)
    && jgt (getJ ind.adx) (num 25)

/-- The SHORT condition of the TREND rules:
`ema20 < sma50 && macd.histogram < 0 && adx > 25`. -/
def trendShortCond (ind : Indicators) : Bool :=
  jlt (getJ ind.ema20) (getJ ind.sma50)
    && jlt (getJ (ind.macd.map (·.histogram))) (num 0)
    && jgt (getJ ind.adx) (num 25)

/-- `BacktestingEngine.generateTrendSignal`: guarded by the truthiness of
`ema20`, `sma50` and `macd`, then EMA-vs-SMA with MACD-histogram and
ADX confirmation. -/
def generateTrendSignal (_candle : Candle) (ind : Indicators) : Signal :=
  if truthyN ind.ema20 && truthyN ind.sma50 && ind.macd.isSome then
    if trendLongCond ind then Signal.LONG
    else if trendShortCond ind then Signal.SHORT
    else Signal.NEUTRAL
  else Signal.NEUTRAL

/-- The LONG condition of the MEAN_REVERSION rules:
`rsi < 30 && close < bollinger.lower * 1.01`. -/
def mrLongCond (candle : Candle) (ind : Indicators) : Bool :=
  jlt (getJ ind.rsi) (num 30)
    && jlt (num candle.close)
      (jmul (getJ (ind.bollinger.map (·.lower))) (num (101 / 100)))

/-- The SHORT condition of the MEAN_REVERSION rules:
`rsi > 70 && close > bollinger.upper * 0.99`. -/
def mrShortCond (candle : Candle) (ind : Indicators) : Bool :=
  jgt (getJ ind.rsi) (num 70)
    && jgt (num candle.close)
      (jmul (getJ (ind.bollinger.map (·.upper))) (num (99 / 100)))

/-- `BacktestingEngine.generateMeanReversionSignal`: RSI plus
near-Bollinger-band triggers with 1% tolerance. -/
def generateMeanReversionSignal (candle : Candle) (ind : Indicators) : Signal :=
  if truthyN ind.rsi && ind.bollinger.isSome then
    if mrLongCond candle ind then Signal.LONG
    else if mrShortCond candle ind then Signal.SHORT
    else Signal.NEUTRAL
  else Signal.NEUTRAL

/-- The LONG condition of the BREAKOUT rules:
`close > donchian.upper && volumeChange > 20`. -/
def brLongCond (candle : Candle) (ind : Indicators) : Bool :=
  jgt (num candle.close) (getJ (ind.donchian.map (·.upper)))
    && jgt (getJ ind.volumeChange) (num 20)

/-- The SHORT condition of the BREAKOUT rules:
`close < donchian.lower && volumeChange > 20`. -/
def brShortCond (candle : Candle) (ind : Indicators) : Bool :=
  jlt (num candle.close) (getJ (ind.donchian.map (·.lower)))
    && jgt (getJ ind.volumeChange) (num 20)

/-- `BacktestingEngine.generateBreakoutSignal`: Donchian-channel breach
with volume confirmation. -/
def generateBreakoutSignal (candle : Candle) (ind : Indicators) : Signal :=
  if ind.donchian.isSome && truthyN ind.volumeChange then
    if brLongCond candle ind then Signal.LONG
    else if brShortCond candle ind then Signal.SHORT
    else Signal.NEUTRAL
  else Signal.NEUTRAL

/-- `BacktestingEngine.generateSignal`: dispatch on the strategy style. -/
def generateSignal (candle : Candle) (ind : Indicators) (strategy : Strategy) :
    Signal :=
  match strategy.style with
  | Style.TREND => generateTrendSignal candle ind
  | Style.MEAN_REVERSION => generateMeanReversionSignal candle ind
  | Style.BREAKOUT => generateBreakoutSignal candle ind

/-! ## Position Simulator (BacktestingEngine.runBacktest) -/

/-- A completed `Trade`. -/
structure Trade where
  entryTime : Int
  entryPrice : JsNum
  exitTime : Int
  exitPrice : JsNum
  type : Side
  pnl : JsNum
  pnlPercentage : JsNum
  exitReason : String
  deriving DecidableEq, Repr

/-- The mutable loop state of one `runBacktest` run. -/
structure BTState where
  capital : JsNum
  position : Option Side
  entryPrice : JsNum
  entryTime : Int
  positionSize : JsNum
  stopLoss : JsNum
  takeProfit : JsNum
  equity : List JsNum
  drawdowns : List JsNum
  maxEquity : JsNum
  maxDrawdown : JsNum
  trades : List Trade
  deriving DecidableEq, Repr

/-- The state entering the simulation loop. -/
def initState (initialCapital : ℚ) : BTState :=
  { capital := num initialCapital, position := none, entryPrice := num 0,
    entryTime := 0, positionSize := num 0, stopLoss := num 0, takeProfit := num 0,
    equity := [num initialCapital], drawdowns := [num 0],
    maxEquity := num initialCapital, maxDrawdown := num 0, trades := [] }

/-- The in-position exit test of the loop body, in source order: stop-loss
first, then take-profit, then signal reversal; yields the raw `pnl`
(price difference) and the exit reason, or `none` when the position
stays open. -/
def exitCheck (pos : Side) (signal : Signal)
    (currentPrice stopLoss takeProfit entryPrice : JsNum) :
    Option (JsNum × String) :=
  if (pos = Side.long && jle currentPrice stopLoss)
      || (pos = Side.short && jge currentPrice stopLoss) then
    some (if pos = Side.long then jsub stopLoss entryPrice
          else jsub entryPrice stopLoss, "Stop Loss")
  else if (pos = Side.long && jge currentPrice takeProfit)
      || (pos = Side.short && jle currentPrice takeProfit) then
    some (if pos = Side.long then jsub takeProfit entryPrice
          else jsub entryPrice takeProfit, "Take Profit")
  else if (pos = Side.long && signal = Signal.SHORT)
      || (pos = Side.short && signal = Signal.LONG) then
    some (if pos = Side.long then jsub currentPrice entryPrice
          else jsub entryPrice currentPrice, "Signal Reversal")
  else none

/-- The entry/exit handling of one `runBacktest` loop iteration at candle
`i` (the loop body before the equity/drawdown update).  (The source's
exit-price selection is written twice, once per side, with identical
bodies; it is written once here.) -/
def btCore (lib : TILib) (strategy : Strategy) (marketData : List Candle)
    (s : BTState) (i : Nat) : BTState :=
  let currentCandle := marketData.getD i dummyCandle
  let previousCandles := marketData.take (i + 1)
  let ind := calculateIndicators lib previousCandles strategy
  let signal := generateSignal currentCandle ind strategy
  match s.position with
  | none =>
      if signal = Signal.LONG ∨ signal = Signal.SHORT then
        let riskAmount := jmul s.capital (num strategy.riskPerTrade)
        let atrValue :=
          match ind.atr with
          | some v => if truthy v then v
                      else num (currentCandle.high - currentCandle.low)
          | none => num (currentCandle.high - currentCandle.low)
        let stopLossPrice :=
          if signal = Signal.LONG then
            jsub (num currentCandle.close) (jmul atrValue (num 2))
          else jadd (num currentCandle.close) (jmul atrValue (num 2))
        let takeProfitPrice :=
          if signal = Signal.LONG then
            jadd (num currentCandle.close)
              (jmul (jmul atrValue (num 2)) (num strategy.takeProfitRatio))
          else jsub (num currentCandle.close)
              (jmul (jmul atrValue (num 2)) (num strategy.takeProfitRatio))
        let riskPerUnit := jabs (jsub (num currentCandle.close) stopLossPrice)
        { s with
          position := some (if signal = Signal.LONG then Side.long else Side.short),
          entryPrice := num currentCandle.close,
          entryTime := currentCandle.timestamp,
          positionSize := jdiv riskAmount riskPerUnit,
          stopLoss := stopLossPrice, takeProfit := takeProfitPrice }
      else s
  | some pos =>
      let currentPrice := num currentCandle.close
      match exitCheck pos signal currentPrice s.stopLoss s.takeProfit s.entryPrice with
      | some (pnl, reason) =>
          let pnlAmount := jmul pnl s.positionSize
          let t : Trade :=
            { entryTime := s.entryTime, entryPrice := s.entryPrice,
              exitTime := currentCandle.timestamp,
              exitPrice :=
                if reason = "Stop Loss" then s.stopLoss
                else if reason = "Take Profit" then s.takeProfit
                else currentPrice,
              type := pos, pnl := pnlAmount,
              pnlPercentage :=
                jmul (jdiv pnlAmount (jmul s.entryPrice s.positionSize)) (num 100),
              exitReason := reason }
          { s with
            capital := jadd s.capital pnlAmount,
            trades := s.trades ++ [t], position := none, entryPrice := num 0,
            entryTime := 0, positionSize := num 0, stopLoss := num 0,
            takeProfit := num 0 }
      | none => s

/-- The unconditional equity/drawdown update closing every loop
iteration. -/
def btEquityUpdate (s1 : BTState) : BTState :=
  let maxEquity := jmax s1.maxEquity s1.capital
  let currentDrawdown := jmul (jdiv (jsub maxEquity s1.capital) maxEquity) (num 100)
  { s1 with
    equity := s1.equity ++ [s1.capital], maxEquity := maxEquity,
    drawdowns := s1.drawdowns ++ [currentDrawdown],
    maxDrawdown := jmax s1.maxDrawdown currentDrawdown }

/-- One iteration of the `runBacktest` candle loop at index `i`. -/
def btStep (lib : TILib) (strategy : Strategy) (marketData : List Candle)
    (s : BTState) (i : Nat) : BTState :=
  btEquityUpdate (btCore lib strategy marketData s i)

/-- The candle loop: `for (let i = 50; i < marketData.length; i++)`. -/
def btLoop (lib : TILib) (strategy : Strategy) (marketData : List Candle)
    (s : BTState) : BTState :=
  (List.range' 50 (marketData.length - 50)).foldl (btStep lib strategy marketData) s

/-- The forced close of a position still open after the last candle
(`exitReason = "End of Test"`). -/
def closeOpenPosition (marketData : List Candle) (s : BTState) : BTState :=
  match s.position with
  | none => s
  | some pos =>
      let lastCandle := marketData.getD (marketData.length - 1) dummyCandle
      let pnl :=
        if pos = Side.long then jsub (num lastCandle.close) s.entryPrice
        else jsub s.entryPrice (num lastCandle.close)
      let pnlAmount := jmul pnl s.positionSize
      { s with
        capital := jadd s.capital pnlAmount,
        trades := s.trades ++
          [{ entryTime := s.entryTime, entryPrice := s.entryPrice,
             exitTime := lastCandle.timestamp, exitPrice := num lastCandle.close,
             type := pos, pnl := pnlAmount,
             pnlPercentage :=
               jmul (jdiv pnlAmount (jmul s.entryPrice s.positionSize)) (num 100),
             exitReason := "End of Test" }] }

/-- The sum `trades.reduce((sum, trade) => sum + trade.pnl, 0)`. -/
def sumPnlJ (trades : List Trade) : JsNum :=
  trades.foldl (fun sum t => jadd sum t.pnl) (num 0)

/-- `BacktestResult`. -/
structure BacktestResult where
  initialCapital : JsNum
  finalCapital : JsNum
  totalPnL : JsNum
  totalPnLPercentage : JsNum
  trades : List Trade
  winRate : JsNum
  averageWin : JsNum
  averageLoss : JsNum
  profitFactor : JsNum
  maxDrawdown : JsNum
  sharpeRatio : JsNum
  equity : List JsNum
  drawdowns : List JsNum
  strategyId : String
  strategyName : String
  startTime : Int
  endTime : Int
  symbol : String
  timeframe : String
  deriving DecidableEq, Repr

/-- The simplified Sharpe computation at the end of `runBacktest`:
one-step returns of the equity curve, mean over standard deviation,
annualized by `√252`; `0` when the standard deviation is exactly `0`. -/
def sharpeOf (equity : List JsNum) : JsNum :=
  let returns := List.zipWith
    (fun prev cur => jdiv (jsub cur prev) prev) equity equity.tail
  let averageReturn := jdiv (returns.foldl jadd (num 0)) (num returns.length)
  let stdDeviation := jsqrt (jdiv
    (returns.foldl
      (fun sum ret => jadd sum (jmul (jsub ret averageReturn) (jsub ret averageReturn)))
      (num 0))
    (num returns.length))
  if stdDeviation ≠ num 0 then
    jmul (jdiv averageReturn stdDeviation) (jsqrt (num 252))
  else num 0

/-- The performance aggregation at the end of `runBacktest`: win rate,
average win/loss, profit factor and the simplified Sharpe ratio over the
equity curve's one-step returns. -/
def aggregate (initialCapital : ℚ) (marketData : List Candle)
    (strategy : Strategy) (s : BTState) : BacktestResult :=
  let winningTrades := s.trades.filter (fun t => jgt t.pnl (num 0))
  let losingTrades := s.trades.filter (fun t => jle t.pnl (num 0))
  let totalPnL := sumPnlJ s.trades
  let winRate := jdiv (num winningTrades.length) (num s.trades.length)
  let averageWin :=
    if winningTrades.length > 0 then
      jdiv (sumPnlJ winningTrades) (num winningTrades.length)
    else num 0
  let averageLoss :=
    if losingTrades.length > 0 then
      jdiv (sumPnlJ losingTrades) (num losingTrades.length)
    else num 0
  let profitFactor :=
    if averageLoss ≠ num 0 then jabs (jdiv averageWin averageLoss) else num 0
  let sharpeRatio := sharpeOf s.equity
  { initialCapital := num initialCapital, finalCapital := s.capital,
    totalPnL := totalPnL,
    totalPnLPercentage := jmul (jdiv totalPnL (num initialCapital)) (num 100),
    trades := s.trades, winRate := winRate, averageWin := averageWin,
    averageLoss := averageLoss, profitFactor := profitFactor,
    maxDrawdown := s.maxDrawdown, sharpeRatio := sharpeRatio,
    equity := s.equity, drawdowns := s.drawdowns,
    strategyId := strategy.id, strategyName := strategy.name,
    startTime := (marketData.getD 0 dummyCandle).timestamp,
    endTime := (marketData.getD (marketData.length - 1) dummyCandle).timestamp,
    symbol := (marketData.getD 0 dummyCandle).symbol,
    timeframe := (marketData.getD 0 dummyCandle).timeframe }

/-- `BacktestingEngine.runBacktest`: the thrown `Error` is an
`Except.error` carrying the source's message. -/
def runBacktest (lib : TILib) (marketData : List Candle) (strategy : Strategy)
    (initialCapital : ℚ := 10000) : Except String BacktestResult :=
  if marketData.length < 50 then
    Except.error "Not enough data for backtesting. Need at least 50 candles."
  else
    Except.ok (aggregate initialCapital marketData strategy
      (closeOpenPosition marketData
        (btLoop lib strategy marketData (initState initialCapital))))

/-! ## Strategy Validator / Selector (StrategyEngine, src/unnamed/part_011) -/

/-- `StrategyEngine.generateSignalFromIndicators`: the simplified signal
rules of the quick backtest (no truthiness guards, no ADX/volume
confirmation). -/
def generateSignalFromIndicators (strategy : Strategy) (ind : Indicators) : Signal :=
  match strategy.style with
  | Style.TREND =>
      if jgt (getJ ind.ema20) (getJ ind.sma50) then Signal.LONG
      else if jlt (getJ ind.ema20) (getJ ind.sma50) then Signal.SHORT
      else Signal.NEUTRAL
  | Style.MEAN_REVERSION =>
      if jlt (getJ ind.rsi) (num 30) then Signal.LONG
      else if jgt (getJ ind.rsi) (num 70) then Signal.SHORT
      else Signal.NEUTRAL
  | Style.BREAKOUT =>
      if jgt (getJ ind.price) (getJ (ind.donchian.map (·.upper))) then Signal.LONG
      else if jlt (getJ ind.price) (getJ (ind.donchian.map (·.lower))) then Signal.SHORT
      else Signal.NEUTRAL

/-- Accumulator of the quick-backtest scoring loop. -/
structure QBAcc where
  wins : Nat
  losses : Nat
  totalProfit : JsNum
  totalLoss : JsNum
  deriving DecidableEq, Repr

/-- One iteration of `StrategyEngine.backtest`'s scoring loop: signal on
the prefix `testingData.slice(0, i)`, scored against the next candle's
close. -/
def qbStep (lib : TILib) (strategy : Strategy) (testingData : List Candle)
    (acc : QBAcc) (i : Nat) : QBAcc :=
  let dataSlice := testingData.take i
  let ind := calculateIndicators lib dataSlice strategy
  let signal := generateSignalFromIndicators strategy ind
  let cur := (testingData.getD i dummyCandle).close
  let next := (testingData.getD (i + 1) dummyCandle).close
  if signal = Signal.LONG ∧ next > cur then
    { acc with
      wins := acc.wins + 1,
      totalProfit := jadd acc.totalProfit (jdiv (num (next - cur)) (num cur)) }
  else if signal = Signal.SHORT ∧ next < cur then
    { acc with
      wins := acc.wins + 1,
      totalProfit := jadd acc.totalProfit (jdiv (num (cur - next)) (num cur)) }
  else if signal ≠ Signal.NEUTRAL then
    { acc with
      losses := acc.losses + 1,
      totalLoss := jadd acc.totalLoss (jabs (jdiv (num (next - cur)) (num cur))) }
  else acc

/-- `StrategyEngine.backtest`: 70/30 train/test split, one-step-ahead
scoring over the test slice, then win rate / averages / expectancy.
The JavaScript split index is `Math.floor(length * 0.7)` on doubles; it
is modelled as the exact `⌊7·length/10⌋`, which can differ from the
float value by one for some lengths — no theorem below depends on the
precise split point.  The JS `winRate = wins/(wins+losses) || 0` turns
the `0/0 = NaN` case (and a falsy `0`) into `0`. -/
def stBacktest (lib : TILib) (strategy : Strategy) (marketData : List Candle) :
    QuickBacktestResult :=
  let testingData := marketData.drop (7 * marketData.length / 10)
  let acc := (List.range' 50 (testingData.length - 1 - 50)).foldl
    (qbStep lib strategy testingData)
    { wins := 0, losses := 0, totalProfit := num 0, totalLoss := num 0 }
  let winRate0 := jdiv (num acc.wins) (num (acc.wins + acc.losses))
  let winRate := if truthy winRate0 then winRate0 else num 0
  let avgWin := if acc.wins > 0 then jdiv acc.totalProfit (num acc.wins) else num 0
  let avgLoss := if acc.losses > 0 then jdiv acc.totalLoss (num acc.losses) else num 0
  { winRate := winRate,
    expectancy := jsub (jmul winRate avgWin) (jmul (jsub (num 1) winRate) avgLoss),
    trades := acc.wins + acc.losses, avgWin := avgWin, avgLoss := avgLoss }

/-- The accumulation step of `validateStrategies`' validation loop: keep
the strategy, with its quick-backtest metrics attached, exactly when the
computed expectancy is strictly positive. -/
def vsStep (lib : TILib) (marketData : List Candle)
    (acc : List Strategy) (strategy : Strategy) : List Strategy :=
  let backTestResult := stBacktest lib strategy marketData
  if jgt backTestResult.expectancy (num 0) then
    acc ++ [{ strategy with backTestResult := some backTestResult }]
  else acc

/-- The sort comparator of `validateStrategies`:
`(b.backTestResult?.expectancy || 0) - (a.backTestResult?.expectancy || 0)`. -/
def expectancyOrZero (s : Strategy) : JsNum :=
  match s.backTestResult with
  | some r => if truthy r.expectancy then r.expectancy else num 0
  | none => num 0

/-- `StrategyEngine.validateStrategies`: with fewer than 100 candles the
candidate list is returned unchanged ("Not enough data for validation");
otherwise each strategy is quick-backtested, only positive-expectancy
strategies are kept (with the metrics attached), and the result is
sorted by descending expectancy.  JavaScript's sort algorithm is
implementation-defined; it is modelled by a stable insertion sort with
the source's comparator (any comparator sort preserves membership, which
is all the claims use). -/
def validateStrategies (lib : TILib) (_symbol : String)
    (marketData : List Candle) (_timeframe : String)
    (strategies : List Strategy) : List Strategy :=
  if marketData.length < 100 then strategies
  else
    let validated := strategies.foldl (vsStep lib marketData) []
    validated.insertionSort
      (fun a b => jle (jsub (expectancyOrZero b) (expectancyOrZero a)) (num 0) = true)

/-! ## Concrete fixtures for counterexamples and witnesses -/

deriving instance DecidableEq for Except

/-- An indicator library returning an empty row list on every call (also
the model of a library call that throws). -/
def zeroLib : TILib :=
  { sma := fun _ _ => [], ema := fun _ _ => [], rsi := fun _ _ => [],
    macd := fun _ => [], bollingerBands := fun _ _ _ => [],
    atr := fun _ _ _ _ => [], adx := fun _ _ _ _ => [],
    stochastic := fun _ _ _ _ _ => [] }

/-- An indicator-library behaviour under which the TREND rules always
fire LONG: `ema20 = 2 > 1 = sma50`, positive MACD histogram, `adx = 30`. -/
def constLibLong : TILib :=
  { sma := fun _ _ => [num 1], ema := fun _ _ => [num 2],
    rsi := fun _ _ => [], macd := fun _ => [{ line := num 1, signal := num 1, histogram := num 1 }],
    bollingerBands := fun _ _ _ => [], atr := fun _ _ _ _ => [],
    adx := fun _ _ _ _ => [num 30], stochastic := fun _ _ _ _ _ => [] }

/-- A TREND strategy with 1% risk per trade and a 2:1 take-profit ratio. -/
def sTrendR : Strategy :=
  { id := "trend-following", name := "Trend Following", style := Style.TREND,
    riskPerTrade := 1 / 100, takeProfitRatio := 2, stopLossType := "atr",
    primaryIndicators := ["ema20", "sma50", "macd"],
    confirmationIndicators := ["adx", "volume"],
    suitableRegimes := [Regime.TRENDING] }

/-- `n` flat candles (`open = high = low = close = 1`), strictly
increasing timestamps. -/
def flatCandles (n : Nat) : List Candle :=
  (List.range n).map fun k =>
    { symbol := "BTC/USDT", timestamp := k, openPrice := 1, high := 1, low := 1,
      close := 1, volume := 1, timeframe := "1h" }

/-- 52 flat candles whose entry candle (index 50) has `high = low`: the
zero-risk-per-unit input of C10/C5. -/
def md52 : List Candle := flatCandles 52

/-- 54 candles with `close = 4k`, `high − low = 1`: under
`constLibLong` this run opens at index 50 and 52 and take-profits at 51
and 53, producing two disjoint trades. -/
def md54 : List Candle :=
  (List.range 54).map fun k =>
    { symbol := "BTC/USDT", timestamp := k, openPrice := 4 * k,
      high := 4 * k + 1, low := 4 * k, close := 4 * k, volume := 1,
      timeframe := "1h" }

/-- 174 candles, flat except the last two closes rise to 2 and 3: the
quick backtest scores two LONG wins on the test slice. -/
def md174 : List Candle :=
  (List.range 174).map fun k =>
    { symbol := "BTC/USDT", timestamp := k, openPrice := 1, high := 1, low := 1,
      close := if k = 172 then 2 else if k = 173 then 3 else 1, volume := 1,
      timeframe := "1h" }

/-! ## Infrastructure lemmas -/

theorem runBacktest_ok {lib : TILib} {md : List Candle} {strat : Strategy}
    {cap : ℚ} {res : BacktestResult} (h : runBacktest lib md strat cap = .ok res) :
    50 ≤ md.length ∧
    res = aggregate cap md strat
      (closeOpenPosition md (btLoop lib strat md (initState cap))) := by
  unfold runBacktest at h
  split at h
  · exact absurd h (by simp)
  · rename_i hlen
    refine ⟨by omega, ?_⟩
    injection h with h
    exact h.symm

/-- Invariant propagation through the `for` loop modelled by a fold over
`List.range'`. -/
theorem foldl_range'_inv {σ : Type} (f : σ → Nat → σ) (P : Nat → σ → Prop) :
    ∀ (k j : Nat) (s : σ), P j s →
      (∀ i t, j ≤ i → i < j + k → P i t → P (i + 1) (f t i)) →
      P (j + k) ((List.range' j k).foldl f s) := by
  intro k
  induction k with
  | zero => intro j s hP _; simpa using hP
  | succ k ih =>
      intro j s hP hstep
      have h1 : P (j + 1) (f s j) := hstep j s le_rfl (by omega) hP
      have h2 := ih (j + 1) (f s j) h1
        (fun i t hi hik hPt => hstep i t (by omega) (by omega) hPt)
      have harr : j + 1 + k = j + (k + 1) := by omega
      rw [harr] at h2
      simpa [List.range'_succ] using h2

/-- What one `btCore` call can do to the state: the trade log either is
unchanged (with the position possibly newly opened at the current
candle's close/time) or grows by exactly one trade closed at the current
candle, whose pnl is added to the capital.  The
equity/drawdown bookkeeping fields are untouched. -/
theorem btCore_shape (lib : TILib) (strategy : Strategy) (md : List Candle)
    (s : BTState) (i : Nat) :
    (btCore lib strategy md s i).equity = s.equity ∧
    (btCore lib strategy md s i).drawdowns = s.drawdowns ∧
    (btCore lib strategy md s i).maxEquity = s.maxEquity ∧
    (btCore lib strategy md s i).maxDrawdown = s.maxDrawdown ∧
    (((btCore lib strategy md s i).trades = s.trades ∧
      (btCore lib strategy md s i).capital = s.capital ∧
      (((btCore lib strategy md s i).position = s.position ∧
        (btCore lib strategy md s i).entryTime = s.entryTime) ∨
       (s.position = none ∧
        (btCore lib strategy md s i).entryTime = (md.getD i dummyCandle).timestamp))) ∨
     (∃ t, s.position.isSome ∧ (btCore lib strategy md s i).position = none ∧
        (btCore lib strategy md s i).trades = s.trades ++ [t] ∧
        (btCore lib strategy md s i).capital = JsNum.jadd s.capital t.pnl ∧
        t.entryTime = s.entryTime ∧
        t.exitTime = (md.getD i dummyCandle).timestamp)) := by
  unfold btCore
  cases hp : s.position with
  | none =>
      refine ⟨?_, ?_, ?_, ?_, ?_⟩ <;> dsimp only <;> split <;>
        simp [hp]
  | some pos =>
      dsimp only
      cases hec : exitCheck pos
          (generateSignal (md.getD i dummyCandle)
            (calculateIndicators lib (md.take (i + 1)) strategy) strategy)
          (num (md.getD i dummyCandle).close) s.stopLoss s.takeProfit s.entryPrice with
      | none => simp [hec, hp]
      | some pr =>
          obtain ⟨pnl, reason⟩ := pr
          refine ⟨by simp [hec], by simp [hec], by simp [hec], by simp [hec], ?_⟩
          right
          refine ⟨{ entryTime := s.entryTime, entryPrice := s.entryPrice,
                    exitTime := (md.getD i dummyCandle).timestamp,
                    exitPrice := if reason = "Stop Loss" then s.stopLoss
                      else if reason = "Take Profit" then s.takeProfit
                      else num (md.getD i dummyCandle).close,
                    type := pos, pnl := JsNum.jmul pnl s.positionSize,
                    pnlPercentage := JsNum.jmul (JsNum.jdiv (JsNum.jmul pnl s.positionSize)
                      (JsNum.jmul s.entryPrice s.positionSize)) (num 100),
                    exitReason := reason },
            by simp [hp], by simp [hec], by simp [hec], by simp [hec], rfl, rfl⟩

/-- What the forced end-of-test close can do. -/
theorem closeOpen_shape (md : List Candle) (s : BTState) :
    (closeOpenPosition md s = s) ∨
    (∃ t, s.position.isSome = true ∧
      closeOpenPosition md s =
        { s with capital := JsNum.jadd s.capital t.pnl, trades := s.trades ++ [t] } ∧
      t.entryTime = s.entryTime ∧
      t.exitTime = (md.getD (md.length - 1) dummyCandle).timestamp) := by
  unfold closeOpenPosition
  cases hp : s.position with
  | none => exact Or.inl rfl
  | some pos =>
      refine Or.inr ⟨{ entryTime := s.entryTime, entryPrice := s.entryPrice,
                       exitTime := (md.getD (md.length - 1) dummyCandle).timestamp,
                       exitPrice := num (md.getD (md.length - 1) dummyCandle).close,
                       type := pos,
                       pnl := JsNum.jmul (if pos = Side.long
                         then JsNum.jsub (num (md.getD (md.length - 1) dummyCandle).close) s.entryPrice
                         else JsNum.jsub s.entryPrice (num (md.getD (md.length - 1) dummyCandle).close))
                         s.positionSize,
                       pnlPercentage := JsNum.jmul (JsNum.jdiv
                         (JsNum.jmul (if pos = Side.long
                           then JsNum.jsub (num (md.getD (md.length - 1) dummyCandle).close) s.entryPrice
                           else JsNum.jsub s.entryPrice (num (md.getD (md.length - 1) dummyCandle).close))
                           s.positionSize)
                         (JsNum.jmul s.entryPrice s.positionSize)) (num 100),
                       exitReason := "End of Test" }, by simp [hp], rfl, rfl, rfl⟩

theorem sumPnlJ_append (l : List Trade) (t : Trade) :
    sumPnlJ (l ++ [t]) = JsNum.jadd (sumPnlJ l) t.pnl := by
  simp [sumPnlJ]

theorem btEquityUpdate_capital (s1 : BTState) :
    (btEquityUpdate s1).capital = s1.capital := rfl

theorem btEquityUpdate_trades (s1 : BTState) :
    (btEquityUpdate s1).trades = s1.trades := rfl

theorem btEquityUpdate_position (s1 : BTState) :
    (btEquityUpdate s1).position = s1.position := rfl

theorem btEquityUpdate_entryTime (s1 : BTState) :
    (btEquityUpdate s1).entryTime = s1.entryTime := rfl

theorem aggregate_finalCapital (cap : ℚ) (md : List Candle) (strat : Strategy)
    (s : BTState) : (aggregate cap md strat s).finalCapital = s.capital := rfl

theorem aggregate_initialCapital (cap : ℚ) (md : List Candle) (strat : Strategy)
    (s : BTState) : (aggregate cap md strat s).initialCapital = num cap := rfl

theorem aggregate_trades (cap : ℚ) (md : List Candle) (strat : Strategy)
    (s : BTState) : (aggregate cap md strat s).trades = s.trades := rfl

theorem aggregate_equity (cap : ℚ) (md : List Candle) (strat : Strategy)
    (s : BTState) : (aggregate cap md strat s).equity = s.equity := rfl

theorem aggregate_drawdowns (cap : ℚ) (md : List Candle) (strat : Strategy)
    (s : BTState) : (aggregate cap md strat s).drawdowns = s.drawdowns := rfl

/-- An all-zero `BacktestResult`, used only as the default of
`Option.getD` when naming a concrete run's result. -/
def dummyRes : BacktestResult :=
  { initialCapital := num 0, finalCapital := num 0, totalPnL := num 0,
    totalPnLPercentage := num 0, trades := [], winRate := num 0,
    averageWin := num 0, averageLoss := num 0, profitFactor := num 0,
    maxDrawdown := num 0, sharpeRatio := num 0, equity := [], drawdowns := [],
    strategyId := "", strategyName := "", startTime := 0, endTime := 0,
    symbol := "", timeframe := "" }

/-- C4: for every completed run, the final capital is the initial capital
plus the sum of all recorded trade pnls (including a forced
End-of-Test close), in the exact arithmetic of the model. -/
theorem c4_capital_conservation (lib : TILib) (md : List Candle)
    (strat : Strategy) (cap : ℚ) (res : BacktestResult)
    (h : runBacktest lib md strat cap = .ok res) :
    res.finalCapital = jadd res.initialCapital (sumPnlJ res.trades) := by
  obtain ⟨-, hres⟩ := runBacktest_ok h
  subst hres
  have hInv : (btLoop lib strat md (initState cap)).capital
      = jadd (num cap) (sumPnlJ (btLoop lib strat md (initState cap)).trades) := by
    refine foldl_range'_inv (btStep lib strat md)
      (fun _ s => s.capital = jadd (num cap) (sumPnlJ s.trades))
      (md.length - 50) 50 (initState cap) ?_ ?_
    · simp [initState, sumPnlJ, jadd_num_zero]
    · intro i t _ _ ht
      have hs := btCore_shape lib strat md t i
      rw [btStep, btEquityUpdate_capital, btEquityUpdate_trades]
      rcases hs.2.2.2.2 with ⟨htr, hcapeq, -⟩ | ⟨tr, -, -, htr, hcapeq, -, -⟩
      · rw [htr, hcapeq, ht]
      · rw [htr, hcapeq, ht, sumPnlJ_append, jadd_assoc]
  rw [aggregate_finalCapital, aggregate_initialCapital, aggregate_trades]
  rcases closeOpen_shape md (btLoop lib strat md (initState cap)) with hid | ⟨tr, -, heq, -, -⟩
  · rw [hid]; exact hInv
  · rw [heq]; simp only []
    rw [hInv, sumPnlJ_append, jadd_assoc]

/-- C4 witness: a concrete run with two Take-Profit trades. -/
theorem c4_capital_conservation_witness :
    ∃ res, runBacktest constLibLong md54 sTrendR 10000 = .ok res ∧
      res.finalCapital = jadd res.initialCapital (sumPnlJ res.trades) :=
  ⟨(runBacktest constLibLong md54 sTrendR 10000).toOption.getD dummyRes,
    by decide,
    c4_capital_conservation constLibLong md54 sTrendR 10000 _ (by decide)⟩

theorem btEquityUpdate_equity (s1 : BTState) :
    (btEquityUpdate s1).equity = s1.equity ++ [s1.capital] := rfl

theorem closeOpen_equity (md : List Candle) (s : BTState) :
    (closeOpenPosition md s).equity = s.equity := by
  unfold closeOpenPosition; cases s.position <;> rfl

theorem closeOpen_drawdowns (md : List Candle) (s : BTState) :
    (closeOpenPosition md s).drawdowns = s.drawdowns := by
  unfold closeOpenPosition; cases s.position <;> rfl

theorem closeOpen_maxEquity (md : List Candle) (s : BTState) :
    (closeOpenPosition md s).maxEquity = s.maxEquity := by
  unfold closeOpenPosition; cases s.position <;> rfl

/-- C6: for every completed run the equity curve has exactly
`candles.length − 50 + 1` entries, and its first entry is the initial
capital (the capital entering the simulation loop). -/
theorem c6_equity_length (lib : TILib) (md : List Candle) (strat : Strategy)
    (cap : ℚ) (res : BacktestResult) (h : runBacktest lib md strat cap = .ok res) :
    res.equity.length = md.length - 50 + 1 ∧
    res.equity.head? = some (num cap) := by
  obtain ⟨hlen, hres⟩ := runBacktest_ok h
  subst hres
  have hInv : ∃ tl, (btLoop lib strat md (initState cap)).equity = num cap :: tl ∧
      (btLoop lib strat md (initState cap)).equity.length
        = 1 + (50 + (md.length - 50) - 50) := by
    refine foldl_range'_inv (btStep lib strat md)
      (fun i s => ∃ tl, s.equity = num cap :: tl ∧ s.equity.length = 1 + (i - 50))
      (md.length - 50) 50 (initState cap) ?_ ?_
    · exact ⟨[], rfl, by simp [initState]⟩
    · intro i t hi _ ht
      obtain ⟨tl, htl, hlen'⟩ := ht
      have hcoreq : (btStep lib strat md t i).equity
          = t.equity ++ [(btCore lib strat md t i).capital] := by
        rw [btStep, btEquityUpdate_equity, (btCore_shape lib strat md t i).1]
      refine ⟨tl ++ [(btCore lib strat md t i).capital], ?_, ?_⟩
      · rw [hcoreq, htl]; rfl
      · rw [hcoreq]; simp only [List.length_append, List.length_singleton]
        omega
  obtain ⟨tl, htl, hlen'⟩ := hInv
  rw [aggregate_equity, closeOpen_equity]
  constructor
  · rw [hlen']; omega
  · rw [htl]; rfl

/-- C6 witness: a 51-candle run has a 2-entry equity curve headed by the
initial capital. -/
theorem c6_equity_length_witness :
    ∃ res, runBacktest zeroLib (flatCandles 51) sTrendR 10000 = .ok res ∧
      res.equity.length = (flatCandles 51).length - 50 + 1 ∧
      res.equity.head? = some (num 10000) :=
  ⟨(runBacktest zeroLib (flatCandles 51) sTrendR 10000).toOption.getD dummyRes,
    by decide,
    c6_equity_length zeroLib (flatCandles 51) sTrendR 10000 _ (by decide)⟩

/-- C3 amended: `runBacktest` rejects any series shorter than 50 candles
with the insufficient-data error, but `validateStrategies` never raises:
with fewer than 100 candles it returns the candidate list unchanged
(unvalidated). -/
theorem c3_insufficient_data (lib : TILib) :
    (∀ (md : List Candle) (strat : Strategy) (cap : ℚ), md.length < 50 →
      runBacktest lib md strat cap =
        Except.error "Not enough data for backtesting. Need at least 50 candles.") ∧
    (∀ (sym : String) (md : List Candle) (tf : String)
      (strategies : List Strategy), md.length < 100 →
      validateStrategies lib sym md tf strategies = strategies) := by
  constructor
  · intro md strat cap h
    unfold runBacktest
    rw [if_pos h]
  · intro sym md tf strategies h
    unfold validateStrategies
    rw [if_pos h]

/-- C3 witness: both halves at a 49-candle series. -/
theorem c3_insufficient_data_witness :
    runBacktest zeroLib (flatCandles 49) sTrendR 10000 =
      Except.error "Not enough data for backtesting. Need at least 50 candles." ∧
    validateStrategies zeroLib "BTC/USDT" (flatCandles 49) "1h" [sTrendR] = [sTrendR] :=
  ⟨(c3_insufficient_data zeroLib).1 (flatCandles 49) sTrendR 10000 (by decide),
   (c3_insufficient_data zeroLib).2 "BTC/USDT" (flatCandles 49) "1h" [sTrendR]
     (by decide)⟩

/-- C3 counterexample: on a 49-candle series `validateStrategies` does not
raise any error — it returns the candidate list unchanged, contradicting
the claim that `validate` raises an `InsufficientDataError` below 50
candles. -/
theorem c3_counterexample :
    (flatCandles 49).length < 50 ∧
    validateStrategies zeroLib "BTC/USDT" (flatCandles 49) "1h" [sTrendR] = [sTrendR] := by
  exact ⟨by decide, by decide⟩

/-- A one-element candle list for the C9 witness. -/
def oneCandle : Candle :=
  { symbol := "BTC/USDT", timestamp := 0, openPrice := 1, high := 2, low := 1,
    close := 2, volume := 1, timeframe := "1h" }

/-- C9 amended: with fewer than 50 candles `calculateIndicators` returns
the bag holding only the key `price`, whose value is the last candle's
close when the list is nonempty and `0` when it is empty. -/
theorem c9_short_window_fallback (lib : TILib) (data : List Candle)
    (strat : Strategy) (h : data.length < 50) :
    calculateIndicators lib data strat =
      { price := some (num (match data.getLast? with
          | some c => c.close
          | none => 0)) } := by
  unfold calculateIndicators
  rw [if_pos h]

/-- C9 witness: a single candle yields `{price: its close}` and nothing
else. -/
theorem c9_short_window_fallback_witness :
    calculateIndicators zeroLib [oneCandle] sTrendR = { price := some (num 2) } := by
  have h := c9_short_window_fallback zeroLib [oneCandle] sTrendR (by decide)
  simpa [oneCandle] using h

/-- C9 counterexample: the empty candle list has fewer than 50 elements
and no last candle, yet the returned bag is `{price: 0}` — the claimed
"value is the last candle's close" has no witness there. -/
theorem c9_counterexample :
    ([] : List Candle).length < 50 ∧ ([] : List Candle).getLast? = none ∧
    calculateIndicators zeroLib ([] : List Candle) sTrendR =
      { price := some (num 0) } :=
  ⟨by decide, rfl, by decide⟩

theorem mem_foldl_vsStep (lib : TILib) (md : List Candle) :
    ∀ (l acc : List Strategy) (x : Strategy),
      x ∈ l.foldl (vsStep lib md) acc →
      x ∈ acc ∨ ∃ s, s ∈ l ∧
        jgt (stBacktest lib s md).expectancy (num 0) = true ∧
        x = { s with backTestResult := some (stBacktest lib s md) } := by
  intro l
  induction l with
  | nil => exact fun acc x hx => Or.inl hx
  | cons hd tl ih =>
      intro acc x hx
      rw [List.foldl_cons] at hx
      rcases ih _ x hx with hacc | ⟨s, hs, hgt, hxeq⟩
      · simp only [vsStep] at hacc
        split at hacc
        · rcases List.mem_append.1 hacc with h | h
          · exact Or.inl h
          · rename_i hgt
            refine Or.inr ⟨hd, List.mem_cons_self hd tl, hgt, ?_⟩
            simpa using h
        · exact Or.inl hacc
      · exact Or.inr ⟨s, List.mem_cons_of_mem _ hs, hgt, hxeq⟩

/-- C2 amended: when the series has at least 100 candles, every strategy
returned by `validateStrategies` derives from a candidate whose
quick-backtest expectancy is strictly positive, and carries exactly
those metrics; with fewer than 100 candles the filter is bypassed (see
the counterexample). -/
theorem c2_expectancy_filter (lib : TILib) (sym : String) (md : List Candle)
    (tf : String) (strategies : List Strategy) (hlen : 100 ≤ md.length)
    (s' : Strategy) (hmem : s' ∈ validateStrategies lib sym md tf strategies) :
    ∃ s, s ∈ strategies ∧
      s'.backTestResult = some (stBacktest lib s md) ∧
      jgt (stBacktest lib s md).expectancy (num 0) = true := by
  unfold validateStrategies at hmem
  rw [if_neg (by omega)] at hmem
  have hmem' : s' ∈ strategies.foldl (vsStep lib md) [] :=
    (List.perm_insertionSort _ _).mem_iff.1 hmem
  rcases mem_foldl_vsStep lib md strategies [] s' hmem' with h | ⟨s, hs, hgt, hxeq⟩
  · simp at h
  · exact ⟨s, hs, by rw [hxeq], hgt⟩

/-- C2 witness: a 174-candle series on which the TREND candidate scores
two wins and is returned with positive expectancy. -/
theorem c2_expectancy_filter_witness :
    ∃ s, s ∈ [sTrendR] ∧
      ({ sTrendR with
          backTestResult := some (stBacktest constLibLong sTrendR md174) } :
        Strategy).backTestResult = some (stBacktest constLibLong s md174) ∧
      jgt (stBacktest constLibLong s md174).expectancy (num 0) = true :=
  c2_expectancy_filter constLibLong "BTC/USDT" md174 "1h" [sTrendR] (by decide)
    { sTrendR with backTestResult := some (stBacktest constLibLong sTrendR md174) }
    (by decide)

/-- C2 counterexample: with a 99-candle series the strategy list is
passed through unvalidated, so a strategy whose computed expectancy is
`0` (not `> 0`) is returned. -/
theorem c2_counterexample :
    validateStrategies zeroLib "BTC/USDT" (flatCandles 99) "1h" [sTrendR] = [sTrendR] ∧
    (stBacktest zeroLib sTrendR (flatCandles 99)).expectancy = num 0 ∧
    jgt (stBacktest zeroLib sTrendR (flatCandles 99)).expectancy (num 0) = false :=
  ⟨by decide, by decide, by decide⟩

theorem jlt_asymm (a b : JsNum) (h : jlt a b = true) : jlt b a = false := by
  cases a <;> cases b <;> simp [jlt] at h ⊢ <;>
    first
      | exact le_of_lt h
      | simp_all

theorem jlt_jle_asymm (a b c : JsNum) (h1 : jlt a b = true) (h2 : jle b c = true) :
    jlt c a = false := by
  cases a <;> cases b <;> cases c <;> simp [jlt, jle] at h1 h2 ⊢ <;>
    first
      | exact le_of_lt (lt_of_lt_of_le h1 h2)
      | exact le_of_lt (lt_of_le_of_lt h2 h1)
      | simp_all

theorem trend_conds_exclusive (ind : Indicators)
    (hL : trendLongCond ind = true) : trendShortCond ind = false := by
  unfold trendLongCond at hL
  unfold trendShortCond
  simp only [Bool.and_eq_true] at hL
  have := jlt_asymm _ _ hL.1.1
  simp [this]

theorem mr_conds_exclusive (c : Candle) (ind : Indicators)
    (hL : mrLongCond c ind = true) : mrShortCond c ind = false := by
  unfold mrLongCond at hL
  unfold mrShortCond
  simp only [Bool.and_eq_true] at hL
  have h70 : jle (num 30) (num 70) = true := by
    simp [jle]; norm_num
  have := jlt_jle_asymm _ _ (num 70) hL.1 h70
  simp [jgt, this]

theorem br_conds_exclusive (c : Candle) (ind : Indicators)
    (hband : jle (getJ (ind.donchian.map (·.lower)))
      (getJ (ind.donchian.map (·.upper))) = true)
    (hL : brLongCond c ind = true) : brShortCond c ind = false := by
  unfold brLongCond at hL
  unfold brShortCond
  simp only [Bool.and_eq_true] at hL
  have hgt : jlt (getJ (ind.donchian.map (·.upper))) (num c.close) = true := hL.1
  have hlow : jlt (num c.close) (getJ (ind.donchian.map (·.lower))) = false := by
    have h2 := jlt_jle_asymm (num c.close)
      (getJ (ind.donchian.map (·.lower)))
      (getJ (ind.donchian.map (·.upper)))
    by_cases hcl : jlt (num c.close) (getJ (ind.donchian.map (·.lower))) = true
    · have := h2 hcl hband
      rw [this] at hgt
      exact absurd hgt (by simp)
    · simpa using hcl
  simp [hlow]

/-- C8 amended: `generateSignal` is a pure function of
(candle, indicators, style) implementing the claimed threshold rules,
but only once the source's truthiness guards pass: TREND requires
`ema20`, `sma50` truthy and `macd` present; MEAN_REVERSION requires
`rsi` truthy and `bollinger` present; BREAKOUT requires `donchian`
present and `volumeChange` truthy — when a guard fails the engine
returns NEUTRAL even if the claimed threshold condition holds (see the
counterexample, `ema20 = 0`).  The BREAKOUT SHORT equivalence
additionally needs the Donchian band ordered (`lower ≤ upper`), which
`calculateDonchianChannels` always produces. -/
theorem c8_signal_rules (c : Candle) (ind : Indicators) (strat : Strategy) :
    (strat.style = Style.TREND →
      (((truthyN ind.ema20 && truthyN ind.sma50 && ind.macd.isSome) = true →
        ((generateSignal c ind strat = Signal.LONG ↔ trendLongCond ind = true) ∧
         (generateSignal c ind strat = Signal.SHORT ↔ trendShortCond ind = true) ∧
         (generateSignal c ind strat = Signal.NEUTRAL ↔
            (trendLongCond ind = false ∧ trendShortCond ind = false)))) ∧
       ((truthyN ind.ema20 && truthyN ind.sma50 && ind.macd.isSome) = false →
         generateSignal c ind strat = Signal.NEUTRAL))) ∧
    (strat.style = Style.MEAN_REVERSION →
      (((truthyN ind.rsi && ind.bollinger.isSome) = true →
        ((generateSignal c ind strat = Signal.LONG ↔ mrLongCond c ind = true) ∧
         (generateSignal c ind strat = Signal.SHORT ↔ mrShortCond c ind = true) ∧
         (generateSignal c ind strat = Signal.NEUTRAL ↔
            (mrLongCond c ind = false ∧ mrShortCond c ind = false)))) ∧
       ((truthyN ind.rsi && ind.bollinger.isSome) = false →
         generateSignal c ind strat = Signal.NEUTRAL))) ∧
    (strat.style = Style.BREAKOUT →
      (((ind.donchian.isSome && truthyN ind.volumeChange) = true →
        ((generateSignal c ind strat = Signal.LONG ↔ brLongCond c ind = true) ∧
         (jle (getJ (ind.donchian.map (·.lower)))
            (getJ (ind.donchian.map (·.upper))) = true →
          (generateSignal c ind strat = Signal.SHORT ↔ brShortCond c ind = true)) ∧
         (generateSignal c ind strat = Signal.NEUTRAL ↔
            (brLongCond c ind = false ∧ brShortCond c ind = false)))) ∧
       ((ind.donchian.isSome && truthyN ind.volumeChange) = false →
         generateSignal c ind strat = Signal.NEUTRAL))) := by
  refine ⟨?_, ?_, ?_⟩
  · intro hstyle
    have hsig : generateSignal c ind strat = generateTrendSignal c ind := by
      unfold generateSignal; rw [hstyle]
    rw [hsig]; unfold generateTrendSignal
    constructor
    · intro hguard
      cases hL : trendLongCond ind
      · cases hS : trendShortCond ind <;> simp [hguard, hL, hS]
      · have hS := trend_conds_exclusive ind hL
        simp [hguard, hL, hS]
    · intro hguard
      simp [hguard]
  · intro hstyle
    have hsig : generateSignal c ind strat = generateMeanReversionSignal c ind := by
      unfold generateSignal; rw [hstyle]
    rw [hsig]; unfold generateMeanReversionSignal
    constructor
    · intro hguard
      cases hL : mrLongCond c ind
      · cases hS : mrShortCond c ind <;> simp [hguard, hL, hS]
      · have hS := mr_conds_exclusive c ind hL
        simp [hguard, hL, hS]
    · intro hguard
      simp [hguard]
  · intro hstyle
    have hsig : generateSignal c ind strat = generateBreakoutSignal c ind := by
      unfold generateSignal; rw [hstyle]
    rw [hsig]; unfold generateBreakoutSignal
    constructor
    · intro hguard
      cases hL : brLongCond c ind
      · cases hS : brShortCond c ind <;> simp [hguard, hL, hS]
      · refine ⟨by simp [hguard, hL], ?_, by simp [hguard, hL]⟩
        intro hband
        have hS := br_conds_exclusive c ind hband hL
        simp [hguard, hL, hS]
    · intro hguard
      simp [hguard]

/-- The indicator bag of the C8 counterexample: `ema20 = 0` is falsy,
so the TREND guard fails although the claimed LONG condition
(`0 > −1`, histogram `1 > 0`, `adx 26 > 25`) holds. -/
def indC8 : Indicators :=
  { ema20 := some (num 0), sma50 := some (num (-1)),
    macd := some { line := num 0, signal := num 0, histogram := num 1 },
    adx := some (num 26) }

/-- C8 counterexample: an indicator bag satisfying the claimed TREND
LONG condition on which `generateSignal` returns NEUTRAL (the falsy
`ema20 = 0` fails the source's truthiness guard). -/
theorem c8_counterexample :
    trendLongCond indC8 = true ∧
    sTrendR.style = Style.TREND ∧
    generateSignal dummyCandle indC8 sTrendR = Signal.NEUTRAL :=
  ⟨by decide, by decide, by decide⟩

/-- The indicator bag of the C8 witness: all TREND guards truthy. -/
def indC8w : Indicators :=
  { ema20 := some (num 2), sma50 := some (num 1),
    macd := some { line := num 1, signal := num 1, histogram := num 1 },
    adx := some (num 30) }

/-- C8 witness: with truthy TREND indicators the LONG equivalence holds
at a concrete bag. -/
theorem c8_signal_rules_witness :
    generateSignal dummyCandle indC8w sTrendR = Signal.LONG ↔
      trendLongCond indC8w = true :=
  (((c8_signal_rules dummyCandle indC8w sTrendR).1 (by decide)).1 (by decide)).1

/-- C10: the position-size division is unguarded.  `md52` satisfies the
50-candle precondition, its entry candle has `high = low`, the TREND
indicator bag carries no `atr` key, and the run completes normally while
returning a `BacktestResult` with `NaN` final capital and a `NaN`-pnl
trade (the position size was `riskAmount / 0 = +Infinity`, and the
stop-loss exit computes `0 × Infinity = NaN`). -/
theorem c10_unguarded_position_size :
    50 ≤ md52.length ∧
    (md52.getD 50 dummyCandle).high = (md52.getD 50 dummyCandle).low ∧
    (calculateIndicators constLibLong (md52.take 51) sTrendR).atr = none ∧
    (runBacktest constLibLong md52 sTrendR 10000).map (fun r => r.finalCapital) =
      Except.ok JsNum.nan ∧
    (runBacktest constLibLong md52 sTrendR 10000).map
      (fun r => r.trades.map (·.pnl)) = Except.ok [JsNum.nan] :=
  ⟨by decide, by decide, by decide, by decide, by decide⟩

/-- A JavaScript number that is finite and nonnegative. -/
def finNonneg : JsNum → Bool
  | num q => decide (0 ≤ q)
  | _ => false

/-- The drawdown series generated from an equity tail, threading the
running maximum `m`: each entry is `(m' − e)/m' × 100` with
`m' = max m e`, exactly the loop's bookkeeping. -/
def ddFrom (m : JsNum) : List JsNum → List JsNum
  | [] => []
  | e :: es =>
      let m' := jmax m e
      jmul (jdiv (jsub m' e) m') (num 100) :: ddFrom m' es

/-- The running maximum of `equity[0..i]` (the loop's `maxEquity` right
after processing entry `i`). -/
def runMax (eq : List JsNum) (i : Nat) : JsNum :=
  (eq.take (i + 1)).foldl jmax (inf false)

theorem ddFrom_length (m : JsNum) (es : List JsNum) :
    (ddFrom m es).length = es.length := by
  induction es generalizing m with
  | nil => rfl
  | cons e es ih => simp [ddFrom, ih]

theorem ddFrom_append (es : List JsNum) (e : JsNum) : ∀ m : JsNum,
    ddFrom m (es ++ [e]) =
      ddFrom m es ++
        [jmul (jdiv (jsub (jmax (es.foldl jmax m) e) e)
          (jmax (es.foldl jmax m) e)) (num 100)] := by
  induction es with
  | nil => intro m; rfl
  | cons x es ih =>
      intro m
      simp only [List.cons_append, ddFrom, List.foldl_cons, List.append_eq]
      rw [ih (jmax m x)]

theorem btEquityUpdate_drawdowns (s1 : BTState) :
    (btEquityUpdate s1).drawdowns = s1.drawdowns ++
      [jmul (jdiv (jsub (jmax s1.maxEquity s1.capital) s1.capital)
        (jmax s1.maxEquity s1.capital)) (num 100)] := rfl

theorem btEquityUpdate_maxEquity (s1 : BTState) :
    (btEquityUpdate s1).maxEquity = jmax s1.maxEquity s1.capital := rfl

theorem ddFrom_mem_bounds : ∀ (es : List JsNum) (m : ℚ), 0 < m →
    (∀ e ∈ es, finNonneg e = true) →
    ∀ d ∈ ddFrom (num m) es, jle (num 0) d = true ∧ jle d (num 100) = true := by
  intro es
  induction es with
  | nil => intro m _ _ d hd; simp [ddFrom] at hd
  | cons e es ih =>
      intro m hm hfin d hd
      obtain ⟨q, rfl, hq0⟩ : ∃ q, e = num q ∧ 0 ≤ q := by
        have he := hfin e (List.mem_cons_self e es)
        cases e <;> simp [finNonneg] at he ⊢
        exact he
      simp only [ddFrom, jmax, List.mem_cons] at hd
      rcases hd with rfl | hd
      · have hmq : (0 : ℚ) < max m q := lt_max_of_lt_left hm
        constructor
        · simp only [jmul, jdiv, jsub, jneg, jadd, jle]
          rw [if_neg (by positivity)]
          simp only [jle]
          have : (0 : ℚ) ≤ (max m q + -q) / max m q :=
            div_nonneg (by simp [le_max_right m q]) (le_of_lt hmq)
          rw [decide_eq_true_eq]
          positivity
        · simp only [jmul, jdiv, jsub, jneg, jadd, jle]
          rw [if_neg (by positivity)]
          simp only [jle, decide_eq_true_eq]
          have h1 : (max m q + -q) / max m q ≤ 1 := by
            rw [div_le_one hmq]
            linarith
          nlinarith [h1]
      · exact ih (max m q) (lt_max_of_lt_left hm)
          (fun x hx => hfin x (List.mem_cons_of_mem _ hx)) d hd

theorem ddFrom_at_max : ∀ (es : List JsNum) (m : ℚ), 0 < m →
    (∀ e ∈ es, finNonneg e = true) →
    ∀ i, i < es.length →
      es.getD i (num 0) = (es.take (i + 1)).foldl jmax (num m) →
      (ddFrom (num m) es).getD i (num 0) = num 0 := by
  intro es
  induction es with
  | nil => intro m _ _ i hi; simp at hi
  | cons e es ih =>
      intro m hm hfin i hi hmax
      obtain ⟨q, rfl, hq0⟩ : ∃ q, e = num q ∧ 0 ≤ q := by
        have he := hfin e (List.mem_cons_self e es)
        cases e <;> simp [finNonneg] at he ⊢
        exact he
      cases i with
      | zero =>
          simp only [List.getD, List.take, List.foldl, List.get?, jmax] at hmax
          have hqm : q = max m q := by
            simpa using hmax
          have hmq : (0 : ℚ) < max m q := lt_max_of_lt_left hm
          simp only [ddFrom, jmax, List.getD, List.get?, Option.getD]
          have hsub : (max m q : ℚ) + -q = 0 := by
            rw [← hqm]; ring
          simp only [jmul, jdiv, jsub, jneg, jadd, hsub]
          rw [if_neg (by positivity)]
          norm_num
      | succ j =>
          simp only [List.length_cons] at hi
          have hj : j < es.length := by omega
          have htake : ((num q :: es).take (j + 1 + 1)).foldl jmax (num m)
              = (es.take (j + 1)).foldl jmax (num (max m q)) := by
            simp [List.take, List.foldl, jmax]
          rw [htake] at hmax
          have hgd : (num q :: es).getD (j + 1) (num 0) = es.getD j (num 0) := by
            simp [List.getD]
          rw [hgd] at hmax
          have := ih (max m q) (lt_max_of_lt_left hm)
            (fun x hx => hfin x (List.mem_cons_of_mem _ hx)) j hj hmax
          simpa [ddFrom, jmax, List.getD] using this

theorem c5_loop_invariant (lib : TILib) (strat : Strategy) (md : List Candle)
    (cap : ℚ) :
    ∃ tl, (btLoop lib strat md (initState cap)).equity = num cap :: tl ∧
      (btLoop lib strat md (initState cap)).drawdowns = num 0 :: ddFrom (num cap) tl ∧
      (btLoop lib strat md (initState cap)).maxEquity = tl.foldl jmax (num cap) := by
  refine foldl_range'_inv (btStep lib strat md)
    (fun _ s => ∃ tl, s.equity = num cap :: tl ∧
      s.drawdowns = num 0 :: ddFrom (num cap) tl ∧
      s.maxEquity = tl.foldl jmax (num cap))
    (md.length - 50) 50 (initState cap) ?_ ?_
  · exact ⟨[], rfl, rfl, rfl⟩
  · intro i t _ _ ht
    obtain ⟨tl, he, hd, hm⟩ := ht
    have hsh := btCore_shape lib strat md t i
    refine ⟨tl ++ [(btCore lib strat md t i).capital], ?_, ?_, ?_⟩
    · rw [btStep, btEquityUpdate_equity, hsh.1, he]; rfl
    · rw [btStep, btEquityUpdate_drawdowns, hsh.2.1, hsh.2.2.1, hd, hm,
        ddFrom_append]
      rfl
    · rw [btStep, btEquityUpdate_maxEquity, hsh.2.2.1, hm, List.foldl_append]
      rfl

/-- C5 amended: for a completed run with the claimed parameter ranges, a
positive initial capital, and every recorded equity value finite and
nonnegative (the unguarded position sizing can break this — see the
counterexample, whose drawdowns contain `NaN`), every drawdown entry
lies in `[0, 100]` and is `0` exactly where the equity equals its
running maximum. -/
theorem c5_drawdown_bounds (lib : TILib) (md : List Candle) (strat : Strategy)
    (cap : ℚ) (res : BacktestResult)
    (h : runBacktest lib md strat cap = .ok res)
    (hr0 : 0 < strat.riskPerTrade) (hr1 : strat.riskPerTrade ≤ 1)
    (htp : 0 < strat.takeProfitRatio) (hcap : 0 < cap)
    (hfin : ∀ e ∈ res.equity, finNonneg e = true) :
    (∀ d ∈ res.drawdowns, jle (num 0) d = true ∧ jle d (num 100) = true) ∧
    (∀ i, i < res.drawdowns.length →
      res.equity.getD i (num 0) = runMax res.equity i →
      res.drawdowns.getD i (num 0) = num 0) := by
  obtain ⟨hlen, hres⟩ := runBacktest_ok h
  subst hres
  obtain ⟨tl, he, hd, hm⟩ := c5_loop_invariant lib strat md cap
  rw [aggregate_equity, closeOpen_equity, he] at hfin
  rw [aggregate_drawdowns, aggregate_equity, closeOpen_drawdowns,
    closeOpen_equity, he, hd]
  have htlfin : ∀ e ∈ tl, finNonneg e = true :=
    fun e hx => hfin e (List.mem_cons_of_mem _ hx)
  constructor
  · intro d hdm
    rcases List.mem_cons.1 hdm with rfl | hdm
    · exact ⟨by decide, by decide⟩
    · exact ddFrom_mem_bounds tl cap hcap htlfin d hdm
  · intro i hi hmax
    cases i with
    | zero => rfl
    | succ j =>
        have hlen' : j < tl.length := by
          have hl := ddFrom_length (num cap) tl
          simp only [List.length_cons, hl] at hi
          omega
        have hrm : runMax (num cap :: tl) (j + 1)
            = (tl.take (j + 1)).foldl jmax (num cap) := by
          simp [runMax, List.take, List.foldl, jmax_neginf]
        rw [hrm] at hmax
        have hgd : (num cap :: tl).getD (j + 1) (num 0) = tl.getD j (num 0) := by
          simp [List.getD]
        rw [hgd] at hmax
        have hz := ddFrom_at_max tl cap hcap htlfin j hlen' hmax
        simpa [List.getD] using hz

/-- C5 witness: a run with two profitable trades, finite equity, and all
drawdowns `0`. -/
theorem c5_drawdown_bounds_witness :
    ∃ res, runBacktest constLibLong md54 sTrendR 10000 = .ok res ∧
      ((∀ d ∈ res.drawdowns, jle (num 0) d = true ∧ jle d (num 100) = true) ∧
       (∀ i, i < res.drawdowns.length →
         res.equity.getD i (num 0) = runMax res.equity i →
         res.drawdowns.getD i (num 0) = num 0)) :=
  ⟨(runBacktest constLibLong md54 sTrendR 10000).toOption.getD dummyRes,
   by decide,
   c5_drawdown_bounds constLibLong md54 sTrendR 10000 _ (by decide)
     (by decide) (by decide) (by decide) (by decide) (by decide)⟩

/-- C5 counterexample: `md52` satisfies every stated precondition
(`0 < riskPerTrade ≤ 1`, `takeProfitRatio > 0`), yet the completed run's
drawdowns are `[0, 0, NaN]`, and `NaN` does not lie in `[0, 100]`. -/
theorem c5_counterexample :
    (0 < sTrendR.riskPerTrade ∧ sTrendR.riskPerTrade ≤ 1 ∧
      0 < sTrendR.takeProfitRatio) ∧
    (runBacktest constLibLong md52 sTrendR 10000).map (fun r => r.drawdowns) =
      Except.ok [num 0, num 0, JsNum.nan] ∧
    jle (num 0) JsNum.nan = false ∧ jle JsNum.nan (num 100) = false :=
  ⟨⟨by decide, by decide, by decide⟩, by decide, by decide, by decide⟩

theorem btLoop_zero_trades (lib : TILib) (strat : Strategy) (md : List Candle)
    (cap : ℚ) (h : (btLoop lib strat md (initState cap)).trades = []) :
    (btLoop lib strat md (initState cap)).capital = num cap ∧
    ∀ e ∈ (btLoop lib strat md (initState cap)).equity, e = num cap := by
  have hinv := foldl_range'_inv (btStep lib strat md)
    (fun _ s => s.trades = [] → (s.capital = num cap ∧ ∀ e ∈ s.equity, e = num cap))
    (md.length - 50) 50 (initState cap) ?_ ?_
  · exact hinv h
  · intro _
    refine ⟨rfl, ?_⟩
    intro e he
    simpa [initState] using he
  · intro i t _ _ ht htr'
    have hsh := btCore_shape lib strat md t i
    rw [btStep, btEquityUpdate_trades] at htr'
    rcases hsh.2.2.2.2 with ⟨htr, hcap, -⟩ | ⟨tr, -, -, htr, -, -, -⟩
    · rw [htr] at htr'
      obtain ⟨hcap', hall⟩ := ht htr'
      constructor
      · rw [btStep, btEquityUpdate_capital, hcap, hcap']
      · rw [btStep, btEquityUpdate_equity, hsh.1]
        intro e he
        rcases List.mem_append.1 he with h1 | h1
        · exact hall e h1
        · rw [List.mem_singleton] at h1
          rw [h1, hcap, hcap']
    · rw [htr] at htr'
      exact absurd htr' (by simp)

theorem btLoop_equity_len (lib : TILib) (strat : Strategy) (md : List Candle)
    (cap : ℚ) :
    (btLoop lib strat md (initState cap)).equity.length = 1 + (md.length - 50) := by
  have hinv := foldl_range'_inv (btStep lib strat md)
    (fun i s => s.equity.length = 1 + (i - 50))
    (md.length - 50) 50 (initState cap) (by simp [initState]) ?_
  · simp only [] at hinv
    unfold btLoop
    omega
  · intro i t hi _ ht
    rw [btStep, btEquityUpdate_equity, (btCore_shape lib strat md t i).1]
    simp only [List.length_append, List.length_singleton, ht]
    omega

theorem aggregate_zero_trades (cap : ℚ) (md : List Candle) (strat : Strategy)
    (s : BTState) (h : s.trades = []) :
    (aggregate cap md strat s).winRate = JsNum.nan ∧
    (aggregate cap md strat s).averageWin = num 0 ∧
    (aggregate cap md strat s).averageLoss = num 0 ∧
    (aggregate cap md strat s).profitFactor = num 0 := by
  unfold aggregate
  simp [h, jdiv]

theorem zipWith_self_tail_replicate {γ : Type} (f : JsNum → JsNum → γ)
    (c : JsNum) : ∀ j, List.zipWith f (List.replicate (j + 1) c)
      (List.replicate j c) = List.replicate j (f c c) := by
  intro j
  induction j with
  | zero => rfl
  | succ n ih =>
      have h1 : List.replicate (n + 2) c = c :: List.replicate (n + 1) c := rfl
      have h2 : List.replicate (n + 1) c = c :: List.replicate n c := rfl
      rw [h1, h2, List.zipWith_cons_cons, ← h2, ih]
      rfl

theorem foldl_jadd_zero_replicate : ∀ k,
    (List.replicate k (num 0)).foldl jadd (num 0) = num 0 := by
  intro k
  induction k with
  | zero => rfl
  | succ n ih =>
      rw [List.replicate_succ, List.foldl_cons]
      simpa [jadd] using ih

theorem foldl_var_zero_replicate : ∀ k,
    (List.replicate k (num 0)).foldl
      (fun sum ret => jadd sum (jmul (jsub ret (num 0)) (jsub ret (num 0))))
      (num 0) = num 0 := by
  intro k
  induction k with
  | zero => rfl
  | succ n ih =>
      rw [List.replicate_succ, List.foldl_cons]
      simpa [jadd, jsub, jneg, jmul] using ih

theorem sharpeOf_replicate (c : ℚ) (hc : c ≠ 0) (k : Nat) :
    sharpeOf (List.replicate (k + 2) (num c)) = num 0 := by
  have h1 : (List.replicate (k + 2) (num c)).tail = List.replicate (k + 1) (num c) := by
    simp
  have h2 : List.zipWith (fun prev cur => jdiv (jsub cur prev) prev)
      (List.replicate (k + 2) (num c)) (List.replicate (k + 1) (num c))
      = List.replicate (k + 1) (num 0) := by
    have h3 := zipWith_self_tail_replicate
      (fun prev cur => jdiv (jsub cur prev) prev) (num c) (k + 1)
    rw [h3]
    congr 1
    simp [jsub, jadd, jneg, jdiv, hc]
  unfold sharpeOf
  rw [h1, h2]
  simp only []
  have hk : ((List.replicate (k + 1) (num 0)).length : ℚ) = (k + 1 : ℚ) := by
    simp
  have hkne : ((k : ℚ) + 1) ≠ 0 := by positivity
  rw [foldl_jadd_zero_replicate]
  have havg : jdiv (num 0) (num ((List.replicate (k + 1) (num 0)).length : ℚ))
      = num 0 := by
    rw [hk]
    simp [jdiv, hkne]
  rw [havg, foldl_var_zero_replicate, havg]
  simp [jsqrt]

theorem sharpeOf_single (x : JsNum) : sharpeOf [x] = JsNum.nan := by
  unfold sharpeOf
  norm_num [jdiv, jsqrt, jmul]
  intro h
  exact absurd h (by decide)

/-- C1 amended: in a completed run that records zero trades, the guarded
divisions behave as claimed — `profitFactor = 0` (zero average loss) and
`sharpeRatio = 0` (zero return variance, which requires at least 51
candles so the return series is nonempty) — but the win-rate division is
unguarded: `winRate` is `NaN` (`0/0`), not `0`; and with exactly 50
candles the return series is empty and `sharpeRatio` is `NaN` too. -/
theorem c1_zero_trade_metrics (lib : TILib) (md : List Candle) (strat : Strategy)
    (cap : ℚ) (res : BacktestResult)
    (h : runBacktest lib md strat cap = .ok res)
    (hcap : 0 < cap) (ht : res.trades = []) :
    res.winRate = JsNum.nan ∧
    res.profitFactor = num 0 ∧
    res.averageWin = num 0 ∧
    res.averageLoss = num 0 ∧
    (50 < md.length → res.sharpeRatio = num 0) ∧
    (md.length = 50 → res.sharpeRatio = JsNum.nan) := by
  obtain ⟨hlen, hres⟩ := runBacktest_ok h
  have hcne : cap ≠ 0 := ne_of_gt hcap
  set L := btLoop lib strat md (initState cap) with hLdef
  have htL0 : (closeOpenPosition md L).trades = [] := by
    have hx : res.trades = (closeOpenPosition md L).trades := by
      rw [hres, aggregate_trades]
    rw [← hx]; exact ht
  have hcl : closeOpenPosition md L = L := by
    rcases closeOpen_shape md L with hid | ⟨t, -, heq, -, -⟩
    · exact hid
    · exfalso
      rw [heq] at htL0
      simp at htL0
  have htL : L.trades = [] := by rw [← hcl]; exact htL0
  have hres2 : res = aggregate cap md strat L := by rw [hres, hcl]
  obtain ⟨hwr, haw, hal, hpf⟩ := aggregate_zero_trades cap md strat L htL
  have hsh : res.sharpeRatio = sharpeOf L.equity := by rw [hres2]; rfl
  obtain ⟨hcapL, hallc⟩ := btLoop_zero_trades lib strat md cap htL
  have hlenq := btLoop_equity_len lib strat md cap
  have hrepl : L.equity = List.replicate L.equity.length (num cap) :=
    List.eq_replicate_of_mem hallc
  refine ⟨by rw [hres2]; exact hwr, by rw [hres2]; exact hpf,
    by rw [hres2]; exact haw, by rw [hres2]; exact hal, ?_, ?_⟩
  · intro hgt
    have hk : L.equity.length = (md.length - 51) + 2 := by
      rw [← hLdef] at hlenq
      omega
    rw [hsh, hrepl, hk]
    exact sharpeOf_replicate cap hcne _
  · intro h50
    have hk : L.equity.length = 1 := by
      rw [← hLdef] at hlenq
      omega
    rw [hsh, hrepl, hk]
    exact sharpeOf_single _

/-- C1 witness: a 51-candle run with no signals records zero trades;
its win rate is `NaN` while profit factor, averages and Sharpe are `0`. -/
theorem c1_zero_trade_metrics_witness :
    ∃ res, runBacktest zeroLib (flatCandles 51) sTrendR 10000 = .ok res ∧
      res.trades = [] ∧
      (res.winRate = JsNum.nan ∧ res.profitFactor = num 0 ∧
       res.averageWin = num 0 ∧ res.averageLoss = num 0 ∧
       (50 < (flatCandles 51).length → res.sharpeRatio = num 0) ∧
       ((flatCandles 51).length = 50 → res.sharpeRatio = JsNum.nan)) :=
  ⟨(runBacktest zeroLib (flatCandles 51) sTrendR 10000).toOption.getD dummyRes,
   by decide, by decide,
   c1_zero_trade_metrics zeroLib (flatCandles 51) sTrendR 10000 _ (by decide)
     (by decide) (by decide)⟩

/-- C1 counterexample: a completed zero-trade run (50 flat candles, no
loop iterations) returns `winRate = NaN` and `sharpeRatio = NaN` — not
`0` as the claim states. -/
theorem c1_counterexample :
    (runBacktest zeroLib (flatCandles 50) sTrendR 10000).map
        (fun r => (r.trades, r.winRate, r.sharpeRatio)) =
      Except.ok ([], JsNum.nan, JsNum.nan) ∧
    JsNum.nan ≠ num 0 :=
  ⟨by decide, by decide⟩

/-- C7: with strictly increasing candle timestamps, consecutive trades in
a completed run never overlap: each trade's exit time is at most the
next trade's entry time (the simulator holds at most one position at a
time). -/
theorem c7_no_overlap (lib : TILib) (md : List Candle) (strat : Strategy)
    (cap : ℚ) (res : BacktestResult)
    (h : runBacktest lib md strat cap = .ok res)
    (hmono : List.Chain' (· < ·) (md.map (·.timestamp))) :
    List.Chain' (fun t₁ t₂ => t₁.exitTime ≤ t₂.entryTime) res.trades := by
  obtain ⟨hlen, hres⟩ := runBacktest_ok h
  have hmono' : ∀ j k, j < k → k < md.length →
      (md.getD j dummyCandle).timestamp < (md.getD k dummyCandle).timestamp := by
    intro j k hjk hk
    have hp : List.Pairwise (· < ·) (md.map (·.timestamp)) :=
      List.chain'_iff_pairwise.1 hmono
    rw [List.pairwise_map] at hp
    have hj : j < md.length := lt_trans hjk hk
    have hpq := (List.pairwise_iff_get.1 hp) ⟨j, hj⟩ ⟨k, hk⟩ hjk
    have e1 : md.getD j dummyCandle = md.get ⟨j, hj⟩ := by
      rw [List.getD_eq_get?, List.get?_eq_get hj]
      rfl
    have e2 : md.getD k dummyCandle = md.get ⟨k, hk⟩ := by
      rw [List.getD_eq_get?, List.get?_eq_get hk]
      rfl
    rw [e1, e2]
    exact hpq
  have hinv := foldl_range'_inv (btStep lib strat md)
    (fun i s =>
      List.Chain' (fun t₁ t₂ => t₁.exitTime ≤ t₂.entryTime) s.trades ∧
      (∀ t ∈ s.trades.getLast?,
        t.exitTime ≤ (md.getD (i - 1) dummyCandle).timestamp) ∧
      (s.position.isSome = true →
        (∀ t ∈ s.trades.getLast?, t.exitTime ≤ s.entryTime) ∧
        s.entryTime ≤ (md.getD (i - 1) dummyCandle).timestamp))
    (md.length - 50) 50 (initState cap) ?_ ?_
  · have heq50 : 50 + (md.length - 50) = md.length := by omega
    rw [heq50] at hinv
    obtain ⟨hchain, hlast, hpos⟩ := hinv
    rw [hres, aggregate_trades]
    rcases closeOpen_shape md (btLoop lib strat md (initState cap)) with
      hid | ⟨tr, hpsome, heq, hent, hexit⟩
    · rw [hid]
      exact hchain
    · rw [heq]
      simp only []
      rw [List.chain'_append]
      refine ⟨hchain, List.chain'_singleton tr, ?_⟩
      intro x hx y hy
      simp only [List.head?_cons, Option.mem_def, Option.some.injEq] at hy
      subst hy
      rw [hent]
      exact (hpos hpsome).1 x hx
  · refine ⟨by simp [initState], by simp [initState], ?_⟩
    intro hsome
    simp [initState] at hsome
  · intro i t hi hik ht
    have himd : i < md.length := by omega
    obtain ⟨hchain, hlast, hpos⟩ := ht
    have hts : (md.getD (i - 1) dummyCandle).timestamp
        < (md.getD i dummyCandle).timestamp :=
      hmono' (i - 1) i (by omega) himd
    have hsh := btCore_shape lib strat md t i
    have hi1 : i + 1 - 1 = i := by omega
    rcases hsh.2.2.2.2 with ⟨htr, -, hposcase⟩ |
      ⟨tr, hpsome, hpos', htr, -, hent, hexit⟩
    · refine ⟨?_, ?_, ?_⟩
      · rw [btStep, btEquityUpdate_trades, htr]
        exact hchain
      · rw [btStep, btEquityUpdate_trades, htr, hi1]
        intro tr htr'
        exact le_trans (hlast tr htr') (le_of_lt hts)
      · rw [btStep, btEquityUpdate_position, btEquityUpdate_entryTime,
          btEquityUpdate_trades, htr, hi1]
        rcases hposcase with ⟨hp, he⟩ | ⟨hpnone, hets⟩
        · intro hsome
          rw [hp] at hsome
          obtain ⟨hb, he'⟩ := hpos hsome
          rw [he]
          exact ⟨hb, le_trans he' (le_of_lt hts)⟩
        · intro _
          rw [hets]
          refine ⟨?_, le_refl _⟩
          intro tr htr'
          exact le_of_lt (lt_of_le_of_lt (hlast tr htr') hts)
    · refine ⟨?_, ?_, ?_⟩
      · rw [btStep, btEquityUpdate_trades, htr, List.chain'_append]
        refine ⟨hchain, List.chain'_singleton tr, ?_⟩
        intro x hx y hy
        simp only [List.head?_cons, Option.mem_def, Option.some.injEq] at hy
        subst hy
        rw [hent]
        exact (hpos hpsome).1 x hx
      · rw [btStep, btEquityUpdate_trades, htr, hi1]
        intro tr' htr'
        rw [List.getLast?_concat] at htr'
        simp only [Option.mem_def, Option.some.injEq] at htr'
        subst htr'
        rw [hexit]
      · rw [btStep, btEquityUpdate_position, hpos']
        intro hsome
        simp at hsome

/-- C7 witness: the two-trade `md54` run with strictly increasing
timestamps. -/
theorem c7_no_overlap_witness :
    ∃ res, runBacktest constLibLong md54 sTrendR 10000 = .ok res ∧
      List.Chain' (fun t₁ t₂ => t₁.exitTime ≤ t₂.entryTime) res.trades :=
  ⟨(runBacktest constLibLong md54 sTrendR 10000).toOption.getD dummyRes,
   by decide,
   c7_no_overlap constLibLong md54 sTrendR 10000 _ (by decide)
     (by rw [List.chain'_iff_pairwise]; decide)⟩
